import Mathlib

/-!
Verification of the DuckDB database-file decoder of this repository
(`src/app/utils/duckdb-parser.ts`, `src/app/utils/version-utils.ts`).

Modelling conventions:
* JS `bigint` values are modelled as `Int` (arbitrary-precision signed
  integers, exactly the JS semantics).  Unsigned 64-bit reads always
  produce nonnegative values.
* The JS `number` values occurring in the decoder (offsets, sizes,
  counts) are integers throughout and are modelled exactly as `Int`.
  The one place where real (non-integral) division occurs,
  `alignValueFloor`, is modelled with exact rational arithmetic and
  `Int.floor`.
* An `ArrayBuffer` is modelled as a byte length with random access to
  byte values.  `DataView.getBigUint64(o, true)` is a little-endian
  8-byte read that throws a `RangeError` when the 8 bytes do not fit in
  the buffer; this is modelled by `readU64?` returning `none`.
* The metadata-chain `while` loop of `analyzeBlocks` need not terminate
  on cyclic input, so the walk takes an explicit fuel parameter; a
  `none` overall result means the loop did not finish within the fuel.
* JS bigint `x >> 56n` (arithmetic right shift) is floor division by
  `2 ^ 56`; for a positive divisor `Int` division (`Int.ediv`) is floor
  division, so `/` is used.  Likewise `Math.floor(a / b)` for integral
  `a` and positive integral `b` is `a / b` on `Int`.
-/

set_option maxRecDepth 16384

/-- `FILE_HEADER_SIZE = 4096`. -/
def FILE_HEADER_SIZE : Int := 4096

/-- `BLOCK_HEADER_SIZE = 8` (size of the checksum). -/
def BLOCK_HEADER_SIZE : Int := 8

/-- `BLOCK_START = FILE_HEADER_SIZE * 3`: where data blocks start. -/
def BLOCK_START : Int := FILE_HEADER_SIZE * 3

/-- `META_SEGMENTS_PER_BLOCK = 64`: each metablock is divided into 64 segments. -/
def META_SEGMENTS_PER_BLOCK : Nat := 64

/-- `INVALID_BLOCK = BigInt("0xFFFFFFFFFFFFFFFF")`: the chain terminator,
`2 ^ 64 - 1` written as a numeral so that it evaluates by kernel
reduction. -/
def INVALID_BLOCK : Int := 18446744073709551615

/-- `getBlockId(blockPointer)`: `blockPointer & ~(BigInt(0xFF) << BigInt(56))`,
with JS bigint (two's-complement, arbitrary-precision) semantics. -/
def getBlockId (blockPointer : Int) : Int :=
  let mask : Int := (0xFF : Int) <<< (56 : Int)
  let invertedMask : Int := Int.lnot mask
  Int.land blockPointer invertedMask

/-- `getBlockIndex(blockPointer)`:
`Number((blockPointer & (BigInt(0xFF) << BigInt(56))) >> BigInt(56))`.
The bigint arithmetic shift `>> 56n` is floor division by `2 ^ 56`
(written as the numeral `72057594037927936` so that it evaluates by
kernel reduction).  The `Number` conversion is exact (the value lies in
`[0, 256)` for the 64-bit pointers read from a file). -/
def getBlockIndex (blockPointer : Int) : Int :=
  let mask : Int := (0xFF : Int) <<< (56 : Int)
  let indexBits : Int := Int.land blockPointer mask
  indexBits / 72057594037927936

/-- A loaded file: an `ArrayBuffer` is a byte length together with random
access to byte values (`byteAt i` is meaningful for `i < byteLength`). -/
structure Buffer where
  byteLength : Nat
  byteAt : Nat → Nat

/-- Little-endian unsigned 64-bit value of the 8 bytes starting at `off`
(`DataView.getBigUint64(off, true)`, bounds already checked). -/
def readU64 (buf : Buffer) (off : Nat) : Int :=
  ((List.range 8).foldr (fun k acc => buf.byteAt (off + k) + 256 * acc) 0 : ℕ)

/-- Bounds-checked little-endian 64-bit read at (possibly negative) byte
offset `off`: `DataView.getBigUint64` throws a `RangeError` (modelled as
`none`) when the 8 bytes do not lie inside the buffer. -/
def readU64? (buf : Buffer) (off : Int) : Option Int :=
  if 0 ≤ off ∧ off + 8 ≤ (buf.byteLength : Int) then some (readU64 buf off.toNat)
  else none

/-- A tagged pointer as stored in a `DatabaseHeader`: the raw 64-bit value
together with the decoded block id and block index. -/
structure MetaBlockPointer where
  pointer : Int
  blockId : Int
  blockIndex : Int
deriving DecidableEq

/-- The database header (`DatabaseHeader` interface). -/
structure DatabaseHeader where
  checksum : Int
  iteration : Int
  metaBlock : MetaBlockPointer
  freeList : MetaBlockPointer
  blockCount : Int
  blockAllocSize : Int
  vectorSize : Int
  serializationCompatibility : Int
deriving DecidableEq

/-- The `BlockStatus` enumeration. -/
inductive BlockStatus where
  | free
  | used
  | metadata
  | meta_segment_used
  | meta_segment_free
  | invalid
deriving DecidableEq

/-- One entry of a metadata block's `metaSegments` array. -/
structure MetaSegment where
  used : Bool
  index : Nat
deriving DecidableEq

/-- The `Block` interface; the optional fields are absent (`none`) exactly
when the source object literal omits them. -/
structure Block where
  id : Int
  status : BlockStatus
  offset : Option Int
  checksum : Option Int
  metaSegments : Option (List MetaSegment)
deriving DecidableEq

/-- The error conditions that escape `analyzeBlocks` uncaught: the two
explicit `throw`s of the free-list section and the `RangeError` of an
unguarded `DataView` read in that section. -/
inductive AnalyzeError where
  | invalidFreeListMeta
  | freeListTooLarge
  | rangeError
deriving DecidableEq

/-- Result of `analyzeBlocks`: a normal return or an uncaught error. -/
inductive AnalyzeResult where
  | ok (blocks : List Block)
  | error (e : AnalyzeError)
deriving DecidableEq

/-- Result of the free-list section: the initial used-pair set and the
free-block id set, or an uncaught error. -/
inductive FreeListResult where
  | ok (pairs : List (Int × Int)) (free : List Int)
  | error (e : AnalyzeError)
deriving DecidableEq

/-- `alignValueFloor(n, val = 8) = Math.floor(n / val) * val`, at the
default `val = 8`, over exact (real) arithmetic. -/
def alignValueFloor (n : ℚ) : Int :=
  ⌊n / 8⌋ * 8

/-- The `segmentSize` constant computed by `analyzeBlocks`:
`alignValueFloor((blockSize - blockHeaderSize) / META_SEGMENTS_PER_BLOCK)`.
The JS expression divides by the positive constants 64 and then 8 with
real division and floors; its exact integer value
`((blockSize - 8) / 512) * 8` (with `/` the floor division of `Int` for
this positive divisor) is used as the definition so that the decoder
evaluates by kernel reduction; the lemma
`segmentSizeOf_eq_alignValueFloor` below proves it equal to the direct
`alignValueFloor` model of the source expression, and the theorem for
claim C8 restates the connection. -/
def segmentSizeOf (blockSize : Int) : Int :=
  ((blockSize - BLOCK_HEADER_SIZE) / 512) * 8

/-- `metaBlockUsedIndexes.has(blockId.toString())`: whether some segment of
block `blockId` was recorded as used by the metadata chain (the string
key used in the source is the decimal rendering of the id, which is
injective, so membership by id is equivalent). -/
def hasBlockKey (pairs : List (Int × Int)) (blockId : Int) : Bool :=
  pairs.any (fun q => q.1 == blockId)

/-- `metaBlockUsedIndexes.get(blockId.toString()).has(j)`. -/
def segmentUsed (pairs : List (Int × Int)) (blockId : Int) (j : Int) : Bool :=
  pairs.contains (blockId, j)

/-- The loop `for (let i = 0; i < freeListCount; i++)` of the free-list
section, reading the 8-byte free block ids at view offsets `16 + i * 8`;
`base` is the absolute buffer offset of the free-list segment.  A read
past the end of the buffer is an uncaught `RangeError` (`none`): the
source loop has no `try`/`catch`. -/
def readFreeIds (buf : Buffer) (base : Int) : Nat → Nat → Option (List Int)
  | _, 0 => some []
  | i, n + 1 =>
    match readU64? buf (base + 16 + 8 * (i : Int)) with
    | none => none
    | some v =>
      match readFreeIds buf base (i + 1) n with
      | none => none
      | some rest => some (v :: rest)

/-- The free-list section of `analyzeBlocks` (lines 282-315 of the
source): records the free-list head segment as used, bounds-checks its
offset (throwing `Invalid meta block for free list` on failure), reads
the 64-bit count at view offset 8, rejects counts above
`Math.floor(segmentSize / 8) - 2` (`Free list count is too large`), and
otherwise reads that many free block ids. -/
def freeListPhase (buf : Buffer) (blockSize segmentSize : Int)
    (activeHeader : DatabaseHeader) : FreeListResult :=
  if activeHeader.freeList.pointer = INVALID_BLOCK then .ok [] []
  else
    let freeListBlockId := activeHeader.freeList.blockId
    let freeListBlockIndex := activeHeader.freeList.blockIndex
    let usedPairs : List (Int × Int) := [(freeListBlockId, freeListBlockIndex)]
    let blockOffset : Int :=
      BLOCK_START + freeListBlockId * blockSize + BLOCK_HEADER_SIZE +
        freeListBlockIndex * segmentSize
    if blockOffset < 0 ∨ blockOffset ≥ (buf.byteLength : Int) then .error .invalidFreeListMeta
    else
      match readU64? buf (blockOffset + 8) with
      | none => .error .rangeError
      | some freeListCount =>
        if freeListCount > segmentSize / 8 - 2 then .error .freeListTooLarge
        else
          match readFreeIds buf blockOffset 0 freeListCount.toNat with
          | none => .error .rangeError
          | some ids => .ok usedPairs ids

/-- The metadata-chain `while` loop of `analyzeBlocks` (lines 317-345 of
the source), with fuel.  Each iteration records the current
`(blockId, blockIndex)` pair, computes the segment offset, and follows
the 8-byte next pointer; the `try`/`catch` inside the loop turns both a
failed bounds check and a `RangeError` of the read into a `break`, so
the walk returns the pairs recorded so far. -/
def metaChainWalk (buf : Buffer) (blockSize segmentSize : Int) :
    Nat → Int → Int → Int → List (Int × Int) → Option (List (Int × Int))
  | fuel, ptr, blockIdCur, blockIndexCur, acc =>
    if ptr = INVALID_BLOCK then some acc
    else
      match fuel with
      | 0 => none
      | fuel' + 1 =>
        let acc' := (blockIdCur, blockIndexCur) :: acc
        let blockOffset : Int :=
          BLOCK_START + blockIdCur * blockSize + BLOCK_HEADER_SIZE +
            blockIndexCur * segmentSize
        if blockOffset < 0 ∨ blockOffset ≥ (buf.byteLength : Int) then some acc'
        else
          match readU64? buf blockOffset with
          | none => some acc'
          | some nextPointer =>
            metaChainWalk buf blockSize segmentSize fuel' nextPointer
              (getBlockId nextPointer) (getBlockIndex nextPointer) acc'

/-- One iteration of the classification loop of `analyzeBlocks` (lines
347-390 of the source) for block id `i`: each iteration pushes exactly
one `Block`; the `try`/`catch` turns the `RangeError` of the checksum
read into an `INVALID` entry. -/
def classifyBlock (buf : Buffer) (blockSize : Int) (pairs : List (Int × Int))
    (freeBlocks : List Int) (i : Nat) : Block :=
  let blockId : Int := (i : Int)
  let offset : Int := BLOCK_START + (i : Int) * blockSize
  if offset < 0 ∨ offset ≥ (buf.byteLength : Int) then
    ⟨blockId, .invalid, none, none, none⟩
  else
    match readU64? buf offset with
    | none => ⟨blockId, .invalid, none, none, none⟩
    | some checksum =>
      if hasBlockKey pairs blockId then
        ⟨blockId, .metadata, some offset, some checksum,
          some ((List.range META_SEGMENTS_PER_BLOCK).map fun (j : ℕ) =>
            MetaSegment.mk (segmentUsed pairs blockId ((j : ℕ) : Int)) j)⟩
      else if freeBlocks.contains blockId then
        ⟨blockId, .free, some offset, some checksum, none⟩
      else
        ⟨blockId, .used, some offset, some checksum, none⟩

/-- The body of `analyzeBlocks` once the active header (and the
`blockSize` taken from it) is fixed: free-list section, metadata-chain
walk, then the classification loop over `[0, totalBlocks)` where
`totalBlocks = Number(activeHeader.blockCount)`. -/
def analyzeCore (fuel : Nat) (buf : Buffer) (blockSize : Int)
    (activeHeader : DatabaseHeader) : Option AnalyzeResult :=
  let segmentSize := segmentSizeOf blockSize
  match freeListPhase buf blockSize segmentSize activeHeader with
  | .error e => some (.error e)
  | .ok pairs0 free =>
    match metaChainWalk buf blockSize segmentSize fuel activeHeader.metaBlock.pointer
        activeHeader.metaBlock.blockId activeHeader.metaBlock.blockIndex pairs0 with
    | none => none
    | some pairs =>
      some (.ok ((List.range (Int.toNat activeHeader.blockCount)).map
        (classifyBlock buf blockSize pairs free)))

/-- `analyzeBlocks(buffer, dbHeader1, dbHeader2)`: selects
`blockSize = Number(iteration1 > iteration2 ? h1.blockAllocSize : h2.blockAllocSize)`
and `activeHeader = iteration1 > iteration2 ? h1 : h2`, then runs the
three phases. -/
def analyzeBlocks (fuel : Nat) (buf : Buffer)
    (dbHeader1 dbHeader2 : DatabaseHeader) : Option AnalyzeResult :=
  let blockSize : Int :=
    if dbHeader1.iteration > dbHeader2.iteration then dbHeader1.blockAllocSize
    else dbHeader2.blockAllocSize
  let activeHeader : DatabaseHeader :=
    if dbHeader1.iteration > dbHeader2.iteration then dbHeader1 else dbHeader2
  analyzeCore fuel buf blockSize activeHeader

/-- The active header (`iteration1 > iteration2 ? h1 : h2`). -/
def activeHeaderOf (dbHeader1 dbHeader2 : DatabaseHeader) : DatabaseHeader :=
  if dbHeader1.iteration > dbHeader2.iteration then dbHeader1 else dbHeader2

/-- The value of the maximal digit prefix of `cs` in base 10
(`parseInt(s, 10)` applied to a string of decimal digits). -/
def digitsValue (cs : List Char) : Nat :=
  cs.foldl (fun a c => 10 * a + (c.toNat - 48)) 0

/-- One `(\d+)` group of the version regular expression: succeeds on a
nonempty maximal prefix of decimal digits, returning its base-10 value
and the rest of the characters. -/
def takeDigits (cs : List Char) : Option (Nat × List Char) :=
  let ds := cs.takeWhile (fun c => c.isDigit)
  if ds.isEmpty then none
  else some (digitsValue ds, cs.dropWhile (fun c => c.isDigit))

/-- `versionStr.match(/^v(\d+)\.(\d+)\.(\d+)/)`: the anchored match of a
`v` followed by three dot-separated digit groups; trailing characters
(such as a commit hash) are ignored.  Greedy matching of `\d+` agrees
with maximal-munch here because the character after each group must be
a literal dot, which is not a digit. -/
def versionMatch (s : String) : Option (Nat × Nat × Nat) :=
  match s.toList with
  | [] => none
  | c :: rest =>
    if c = 'v' then
      match takeDigits rest with
      | none => none
      | some (major, r1) =>
        match r1 with
        | [] => none
        | c1 :: r2 =>
          if c1 = '.' then
            match takeDigits r2 with
            | none => none
            | some (minor, r3) =>
              match r3 with
              | [] => none
              | c2 :: r4 =>
                if c2 = '.' then
                  match takeDigits r4 with
                  | none => none
                  | some (patch, _) => some (major, minor, patch)
                else none
          else none
    else none

/-- `isVersionSupported(versionStr)` from `version-utils.ts`: rejects the
empty string and strings not starting with `v` (the JS guard
`!versionStr || !versionStr.startsWith('v')`, modelled on the character
list), then matches the version pattern and accepts exactly when
`major > 1`, or `major == 1 && minor > 2`, or
`major == 1 && minor == 2 && patch >= 0`. -/
def isVersionSupported (versionStr : String) : Bool :=
  if versionStr.toList.head? ≠ some 'v' then false
  else
    match versionMatch versionStr with
    | none => false
    | some (major, minor, patch) =>
      if 1 < major then true
      else if major = 1 ∧ 2 < minor then true
      else if major = 1 ∧ minor = 2 ∧ 0 ≤ patch then true
      else false

/-- The shape of claim C9's acceptance condition:
`(major, minor, patch)` lexicographically at least `(1, 2, 0)`. -/
def versionLexGe120 (major minor patch : Nat) : Prop :=
  1 < major ∨ (major = 1 ∧ 2 < minor) ∨ (major = 1 ∧ minor = 2 ∧ 0 ≤ patch)

/-- A buffer of the given length whose bytes are all zero (test vector). -/
def zeroBuffer (len : Nat) : Buffer :=
  ⟨len, fun _ => 0⟩

/-- A buffer of the given length whose bytes are `0xFF` on `[lo, hi)` and
zero elsewhere (test vector: the `0xFF` run holds a chain terminator). -/
def ffWindowBuffer (len lo hi : Nat) : Buffer :=
  ⟨len, fun k => if lo ≤ k ∧ k < hi then 255 else 0⟩

/-- A buffer of the given length, zero except for a single little-endian
64-bit value `v` stored at byte offset `lo` (test vector). -/
def u64AtBuffer (len lo : Nat) (v : Nat) : Buffer :=
  ⟨len, fun k => if lo ≤ k ∧ k < lo + 8 then v / 256 ^ (k - lo) % 256 else 0⟩

/-- The parsed form of the terminator pointer (test vector): raw value
`INVALID_BLOCK` with its decoded halves, `getBlockId INVALID_BLOCK =
2 ^ 56 - 1` and `getBlockIndex INVALID_BLOCK = 255`, written as
numerals so that they evaluate by kernel reduction. -/
def invalidPointer : MetaBlockPointer :=
  ⟨INVALID_BLOCK, 72057594037927935, 255⟩

/-- A database header with the given iteration, pointers, block count and
block size; the remaining fields are zero (test vector). -/
def mkHeader (iteration : Int) (metaBlock freeList : MetaBlockPointer)
    (blockCount blockAllocSize : Int) : DatabaseHeader :=
  ⟨0, iteration, metaBlock, freeList, blockCount, blockAllocSize, 0, 0⟩

/-- Test vector for the metadata-chain claims: a 24576-byte buffer
(three 4096-byte header blocks plus three 4096-byte data blocks) whose
bytes are `0xFF` exactly on `[16392, 16400)`, i.e. segment 0 of block 1
holds the chain terminator as its next pointer. -/
def chainBuffer : Buffer :=
  ffWindowBuffer 24576 16392 16400

/-- Test vector: header whose metadata chain starts at block 1, segment 0
(raw pointer `1`), with no free list, 3 blocks of 4096 bytes. -/
def chainHeader : DatabaseHeader :=
  mkHeader 1 ⟨1, 1, 0⟩ invalidPointer 3 4096

/-- The block array produced for `chainBuffer`/`chainHeader`. -/
def chainBlocks : List Block :=
  (List.range 3).map (classifyBlock chainBuffer 4096 [((1 : Int), (0 : Int))] [])

/-- Test vector for the free-list claims: a 16384-byte buffer, zero
except byte 12304 = 2 (the free-list count, at offset 8 of the free
list's first segment) and bytes 12312 = 3 and 12320 = 4 (two free block
ids at offsets 16 and 24 of the segment). -/
def freeListBuffer : Buffer :=
  ⟨16384, fun k => if k = 12304 then 2 else if k = 12312 then 3 else if k = 12320 then 4 else 0⟩

/-- Test vector: header with free-list pointer 0 (block 0, segment 0),
no metadata chain, 4 blocks of 4096 bytes. -/
def freeListHeader : DatabaseHeader :=
  mkHeader 1 invalidPointer ⟨0, 0, 0⟩ 4 4096

/-- Test vector for the LIST_TOO_LARGE claims: a 16384-byte buffer whose
bytes are `0xFF` exactly on `[12304, 12312)`, so the free-list count
read at offset 8 of the free list's first segment is `2 ^ 64 - 1`. -/
def tooLargeBuffer : Buffer :=
  ffWindowBuffer 16384 12304 12312

/-- Test vector: header with free-list pointer 0, no metadata chain, one
4096-byte block. -/
def tooLargeHeader : DatabaseHeader :=
  mkHeader 1 invalidPointer ⟨0, 0, 0⟩ 1 4096

/-- Test vector for the chain-walk recovery claim: an all-zero buffer of
16396 bytes, long enough for block 1's checksum read (offset 16384) but
one byte too short for the next-pointer read of block 1's segment 0
(offset 16392, needing bytes up to 16400). -/
def shortBuffer : Buffer :=
  zeroBuffer 16396

/-- Test vector for the fatal free-list bounds check: a 100-byte buffer,
shorter than any data-block offset. -/
def tinyBuffer : Buffer :=
  zeroBuffer 100

lemma analyzeBlocks_eq_core (fuel : Nat) (buf : Buffer) (h1 h2 : DatabaseHeader) :
    analyzeBlocks fuel buf h1 h2 =
      analyzeCore fuel buf (activeHeaderOf h1 h2).blockAllocSize (activeHeaderOf h1 h2) := by
  unfold analyzeBlocks activeHeaderOf
  by_cases h : h1.iteration > h2.iteration <;> simp [h]
lemma natCast_shiftLeft56 (a : ℕ) : ((a : ℤ) <<< (56 : ℤ)) = ((a <<< 56 : ℕ) : ℤ) := by
  show Int.ofNat (Nat.shiftLeft' false a 56) = Int.ofNat (a <<< 56)
  rw [Nat.shiftLeft'_false]

lemma mask56_eq : ((0xFF : Int) <<< (56 : Int)) = ((255 <<< 56 : ℕ) : ℤ) :=
  natCast_shiftLeft56 255

lemma getBlockId_natCast (n : ℕ) :
    getBlockId (n : ℤ) = ((Nat.ldiff n (255 <<< 56) : ℕ) : ℤ) := by
  simp only [getBlockId, mask56_eq]
  rfl

lemma getBlockIndex_natCast (n : ℕ) :
    getBlockIndex (n : ℤ) = (((n &&& (255 <<< 56)) / 2 ^ 56 : ℕ) : ℤ) := by
  simp only [getBlockIndex, mask56_eq]
  show (Int.ofNat (Nat.land n (255 <<< 56))) / ((72057594037927936 : ℤ)) = _
  rw [show (72057594037927936 : ℤ) = ((2 ^ 56 : ℕ) : ℤ) by norm_num]
  norm_cast

lemma testBit_mask56 (i : ℕ) :
    Nat.testBit (255 <<< 56) i = (decide (56 ≤ i) && decide (i < 64)) := by
  rw [Nat.testBit_shiftLeft, show (255 : ℕ) = 2 ^ 8 - 1 by norm_num,
    Nat.testBit_two_pow_sub_one]
  by_cases h56 : 56 ≤ i <;> simp [h56, decide_eq_decide] <;> omega

lemma ldiff_mask56 (n : ℕ) (h : n < 2 ^ 64) :
    Nat.ldiff n (255 <<< 56) = n % 2 ^ 56 := by
  apply Nat.eq_of_testBit_eq
  intro i
  rw [Nat.testBit_ldiff, Nat.testBit_mod_two_pow, testBit_mask56]
  by_cases h56 : i < 56
  · simp [h56] <;> omega
  · by_cases h64 : i < 64
    · simp [h56, h64] <;> omega
    · have hbit : n.testBit i = false :=
        Nat.testBit_lt_two_pow
          (lt_of_lt_of_le h (Nat.pow_le_pow_right (by norm_num) (by omega)))
      simp [hbit, h56, h64]

lemma land_mask56_div (n : ℕ) (h : n < 2 ^ 64) :
    (n &&& (255 <<< 56)) / 2 ^ 56 = n / 2 ^ 56 := by
  rw [← Nat.shiftRight_eq_div_pow, ← Nat.shiftRight_eq_div_pow]
  apply Nat.eq_of_testBit_eq
  intro i
  rw [Nat.testBit_shiftRight, Nat.testBit_shiftRight, Nat.testBit_and, testBit_mask56]
  by_cases h8 : i < 8
  · simp <;> omega
  · have hbit : n.testBit (56 + i) = false :=
      Nat.testBit_lt_two_pow
        (lt_of_lt_of_le h (Nat.pow_le_pow_right (by norm_num) (by omega)))
    simp [hbit]

lemma mod_lor_div_shift (n : ℕ) :
    (n % 2 ^ 56) ||| ((n / 2 ^ 56) <<< 56) = n := by
  rw [← Nat.shiftRight_eq_div_pow]
  apply Nat.eq_of_testBit_eq
  intro i
  rw [Nat.testBit_or, Nat.testBit_mod_two_pow, Nat.testBit_shiftLeft]
  by_cases h56 : i < 56
  · simp [h56] <;> omega
  · have h5 : 56 + (i - 56) = i := by omega
    simp [h56, Nat.testBit_shiftRight, h5] <;> omega

lemma lor_natCast (a b : ℕ) :
    Int.lor ((a : ℕ) : ℤ) ((b : ℕ) : ℤ) = ((a ||| b : ℕ) : ℤ) := rfl

/-- C1: for every 64-bit tagged pointer `p`, the decoded halves recombine:
`getBlockId p ||| (getBlockIndex p <<< 56) = p`; moreover `getBlockId`
returns the low 56 bits (`p % 2 ^ 56`) and `getBlockIndex` the high
8 bits (`p / 2 ^ 56`).  Both functions are total Lean functions over
the whole domain (no failure modes). -/
theorem getBlockId_getBlockIndex_roundtrip (p : Int) (hp0 : 0 ≤ p) (hp : p < 2 ^ 64) :
    Int.lor (getBlockId p) (getBlockIndex p <<< (56 : Int)) = p ∧
    getBlockId p = p % 2 ^ 56 ∧
    getBlockIndex p = p / 2 ^ 56 := by
  obtain ⟨n, rfl⟩ := Int.eq_ofNat_of_zero_le hp0
  have hn : n < 2 ^ 64 := by exact_mod_cast hp
  have hid : getBlockId (n : ℤ) = ((n % 2 ^ 56 : ℕ) : ℤ) := by
    rw [getBlockId_natCast, ldiff_mask56 n hn]
  have hidx : getBlockIndex (n : ℤ) = ((n / 2 ^ 56 : ℕ) : ℤ) := by
    rw [getBlockIndex_natCast]
    rw [land_mask56_div n hn]
  refine ⟨?_, ?_, ?_⟩
  · rw [hid, hidx, natCast_shiftLeft56, lor_natCast, mod_lor_div_shift]
  · rw [hid, Int.natCast_mod, Nat.cast_pow, Nat.cast_ofNat]
  · rw [hidx, Int.natCast_div, Nat.cast_pow, Nat.cast_ofNat]

theorem getBlockId_getBlockIndex_roundtrip_witness :
    (0 : ℤ) ≤ 216172782113783815 ∧ (216172782113783815 : ℤ) < 2 ^ 64 ∧
      (Int.lor (getBlockId 216172782113783815)
          (getBlockIndex 216172782113783815 <<< (56 : Int)) = 216172782113783815 ∧
        getBlockId 216172782113783815 = 216172782113783815 % 2 ^ 56 ∧
        getBlockIndex 216172782113783815 = 216172782113783815 / 2 ^ 56) :=
  ⟨by norm_num, by norm_num,
    getBlockId_getBlockIndex_roundtrip 216172782113783815 (by norm_num) (by norm_num)⟩

lemma int_ediv_64_ediv_8 (a : ℤ) : a / 64 / 8 = a / 512 := by
  have h0 : 0 ≤ a % 512 := Int.emod_nonneg a (by norm_num)
  have h1 : a % 512 < 512 := Int.emod_lt_of_pos a (by norm_num)
  have ha : a = 512 * (a / 512) + a % 512 := (Int.ediv_add_emod a 512).symm
  have h64 : a / 64 = a % 512 / 64 + 8 * (a / 512) := by
    conv_lhs => rw [ha]
    rw [show (512 : ℤ) * (a / 512) + a % 512 = a % 512 + (8 * (a / 512)) * 64 by ring,
      Int.add_mul_ediv_right _ _ (by norm_num)]
  have h2 : 0 ≤ a % 512 / 64 := Int.ediv_nonneg h0 (by norm_num)
  have h3 : a % 512 / 64 < 8 := by
    apply Int.ediv_lt_of_lt_mul (by norm_num)
    omega
  rw [h64, Int.add_mul_ediv_left _ _ (by norm_num : (8:ℤ) ≠ 0),
    Int.ediv_eq_zero_of_lt h2 h3, zero_add]

lemma segmentSizeOf_eq_alignValueFloor (blockSize : Int) :
    segmentSizeOf blockSize =
      alignValueFloor (((blockSize : ℚ) - (BLOCK_HEADER_SIZE : ℚ)) /
        (META_SEGMENTS_PER_BLOCK : ℚ)) := by
  have hq : ((blockSize : ℚ) - (BLOCK_HEADER_SIZE : ℚ)) / (META_SEGMENTS_PER_BLOCK : ℚ) / 8 =
      ((blockSize - 8 : ℤ) : ℚ) / ((512 : ℕ) : ℚ) := by
    unfold BLOCK_HEADER_SIZE META_SEGMENTS_PER_BLOCK
    push_cast
    ring
  unfold alignValueFloor
  rw [hq, Rat.floor_intCast_div_natCast]
  unfold segmentSizeOf BLOCK_HEADER_SIZE
  norm_num

lemma classifyBlock_id (buf : Buffer) (bs : Int) (pairs : List (Int × Int))
    (free : List Int) (i : Nat) :
    (classifyBlock buf bs pairs free i).id = (i : Int) := by
  simp only [classifyBlock]
  split
  · rfl
  · split
    · rfl
    · split
      · rfl
      · split <;> rfl

lemma analyzeCore_ok {fuel : Nat} {buf : Buffer} {bs : Int} {active : DatabaseHeader}
    {blocks : List Block} (h : analyzeCore fuel buf bs active = some (.ok blocks)) :
    ∃ pairs0 free pairs,
      freeListPhase buf bs (segmentSizeOf bs) active = .ok pairs0 free ∧
      metaChainWalk buf bs (segmentSizeOf bs) fuel active.metaBlock.pointer
        active.metaBlock.blockId active.metaBlock.blockIndex pairs0 = some pairs ∧
      blocks = (List.range (Int.toNat active.blockCount)).map (classifyBlock buf bs pairs free) := by
  simp only [analyzeCore] at h
  cases hfl : freeListPhase buf bs (segmentSizeOf bs) active with
  | error e => rw [hfl] at h; simp at h
  | ok pairs0 free =>
    rw [hfl] at h
    dsimp only at h
    cases hwalk : metaChainWalk buf bs (segmentSizeOf bs) fuel active.metaBlock.pointer
        active.metaBlock.blockId active.metaBlock.blockIndex pairs0 with
    | none => rw [hwalk] at h; simp at h
    | some pairs =>
      rw [hwalk] at h
      simp only [Option.some.injEq, AnalyzeResult.ok.injEq] at h
      exact ⟨pairs0, free, pairs, rfl, hwalk, h.symm⟩

/-- C8: the segment size used by `analyzeBlocks` equals the value of the
real-division expression `alignValueFloor((blockAllocSize - 8) / 64)`
(conjunct 1), which equals the exact integer `8 * ((blockAllocSize - 8) / 512)`
(conjunct 2) and also `floor((blockAllocSize - 8) / 64)` floored down to
the nearest multiple of 8 (conjunct 3), for every 64-bit `blockAllocSize`. -/
theorem segmentSize_exact (blockAllocSize : Int)
    (h0 : 0 ≤ blockAllocSize) (h64 : blockAllocSize < 2 ^ 64) :
    segmentSizeOf blockAllocSize =
      alignValueFloor (((blockAllocSize : ℚ) - (BLOCK_HEADER_SIZE : ℚ)) /
        (META_SEGMENTS_PER_BLOCK : ℚ)) ∧
    alignValueFloor (((blockAllocSize : ℚ) - (BLOCK_HEADER_SIZE : ℚ)) /
        (META_SEGMENTS_PER_BLOCK : ℚ)) =
      8 * ((blockAllocSize - BLOCK_HEADER_SIZE) / 512) ∧
    alignValueFloor (((blockAllocSize : ℚ) - (BLOCK_HEADER_SIZE : ℚ)) /
        (META_SEGMENTS_PER_BLOCK : ℚ)) =
      ((blockAllocSize - BLOCK_HEADER_SIZE) / 64 / 8) * 8 := by
  refine ⟨segmentSizeOf_eq_alignValueFloor blockAllocSize, ?_, ?_⟩
  · rw [← segmentSizeOf_eq_alignValueFloor]
    unfold segmentSizeOf
    ring
  · rw [← segmentSizeOf_eq_alignValueFloor]
    unfold segmentSizeOf
    rw [int_ediv_64_ediv_8]

theorem segmentSize_exact_witness :
    (0 : ℤ) ≤ 4096 ∧ (4096 : ℤ) < 2 ^ 64 ∧
      (segmentSizeOf 4096 =
          alignValueFloor (((4096 : ℚ) - (BLOCK_HEADER_SIZE : ℚ)) /
            (META_SEGMENTS_PER_BLOCK : ℚ)) ∧
        alignValueFloor (((4096 : ℚ) - (BLOCK_HEADER_SIZE : ℚ)) /
            (META_SEGMENTS_PER_BLOCK : ℚ)) = 8 * (((4096 : ℤ) - BLOCK_HEADER_SIZE) / 512) ∧
        alignValueFloor (((4096 : ℚ) - (BLOCK_HEADER_SIZE : ℚ)) /
            (META_SEGMENTS_PER_BLOCK : ℚ)) = (((4096 : ℤ) - BLOCK_HEADER_SIZE) / 64 / 8) * 8) :=
  ⟨by norm_num, by norm_num, segmentSize_exact 4096 (by norm_num) (by norm_num)⟩

/-- C3: `analyzeBlocks` is a function of the buffer and the active header
alone, where the active header is `iteration1 > iteration2 ? h1 : h2`
(so header 2 on a tie): its `blockCount`, `blockAllocSize`, `metaBlock`
and `freeList` are the only header fields that reach the three phases,
and two header pairs with the same active header give identical
results. -/
theorem analyzeBlocks_activeHeader (fuel : Nat) (buf : Buffer) (h1 h2 : DatabaseHeader) :
    analyzeBlocks fuel buf h1 h2 =
      analyzeCore fuel buf (activeHeaderOf h1 h2).blockAllocSize (activeHeaderOf h1 h2) ∧
    activeHeaderOf h1 h2 = (if h1.iteration > h2.iteration then h1 else h2) ∧
    (∀ h1' h2' : DatabaseHeader, activeHeaderOf h1 h2 = activeHeaderOf h1' h2' →
      analyzeBlocks fuel buf h1 h2 = analyzeBlocks fuel buf h1' h2') :=
  ⟨analyzeBlocks_eq_core fuel buf h1 h2, rfl, fun h1' h2' he => by
    rw [analyzeBlocks_eq_core, analyzeBlocks_eq_core, he]⟩

theorem analyzeBlocks_activeHeader_witness :
    analyzeBlocks 0 (zeroBuffer 12304) (mkHeader 3 invalidPointer invalidPointer 99 64) (mkHeader 7 invalidPointer invalidPointer 2 8) =
      analyzeCore 0 (zeroBuffer 12304)
        (activeHeaderOf (mkHeader 3 invalidPointer invalidPointer 99 64) (mkHeader 7 invalidPointer invalidPointer 2 8)).blockAllocSize
        (activeHeaderOf (mkHeader 3 invalidPointer invalidPointer 99 64) (mkHeader 7 invalidPointer invalidPointer 2 8)) ∧
    analyzeBlocks 0 (zeroBuffer 12304) (mkHeader 3 invalidPointer invalidPointer 99 64) (mkHeader 7 invalidPointer invalidPointer 2 8) =
      analyzeBlocks 0 (zeroBuffer 12304) (mkHeader 5 invalidPointer invalidPointer 77 32) (mkHeader 7 invalidPointer invalidPointer 2 8) :=
  ⟨(analyzeBlocks_activeHeader 0 (zeroBuffer 12304) (mkHeader 3 invalidPointer invalidPointer 99 64) (mkHeader 7 invalidPointer invalidPointer 2 8)).1,
    (analyzeBlocks_activeHeader 0 (zeroBuffer 12304) (mkHeader 3 invalidPointer invalidPointer 99 64) (mkHeader 7 invalidPointer invalidPointer 2 8)).2.2
      (mkHeader 5 invalidPointer invalidPointer 77 32) (mkHeader 7 invalidPointer invalidPointer 2 8) (by decide)⟩

/-- C2: whenever `analyzeBlocks` returns normally, the returned array has
exactly `activeHeader.blockCount` entries, one per id `i` in
`[0, blockCount)` in increasing id order (out-of-bounds ids included,
as `INVALID` entries, rather than skipped). -/
theorem analyzeBlocks_length (fuel : Nat) (buf : Buffer) (h1 h2 : DatabaseHeader)
    (blocks : List Block)
    (hrun : analyzeBlocks fuel buf h1 h2 = some (.ok blocks))
    (hcount : 0 ≤ (activeHeaderOf h1 h2).blockCount) :
    (blocks.length : Int) = (activeHeaderOf h1 h2).blockCount ∧
    ∀ (i : Nat) (hi : i < blocks.length), blocks[i].id = (i : Int) := by
  rw [analyzeBlocks_eq_core] at hrun
  obtain ⟨pairs0, free, pairs, hfl, hwalk, hblocks⟩ := analyzeCore_ok hrun
  subst hblocks
  refine ⟨?_, ?_⟩
  · rw [List.length_map, List.length_range, Int.toNat_of_nonneg hcount]
  · intro i hi
    have hi' : i < Int.toNat (activeHeaderOf h1 h2).blockCount := by
      simpa using hi
    simp [List.getElem_map, List.getElem_range, classifyBlock_id]

theorem analyzeBlocks_length_witness :
    (([(⟨0, BlockStatus.used, some 12288, some 0, none⟩ : Block),
        ⟨1, BlockStatus.used, some 12296, some 0, none⟩].length : Int) =
      (activeHeaderOf (mkHeader 1 invalidPointer invalidPointer 2 8)
        (mkHeader 1 invalidPointer invalidPointer 2 8)).blockCount) ∧
    ∀ (i : Nat)
      (hi : i < [(⟨0, BlockStatus.used, some 12288, some 0, none⟩ : Block),
        ⟨1, BlockStatus.used, some 12296, some 0, none⟩].length),
      [(⟨0, BlockStatus.used, some 12288, some 0, none⟩ : Block),
        ⟨1, BlockStatus.used, some 12296, some 0, none⟩][i].id = (i : Int) :=
  analyzeBlocks_length 0 (zeroBuffer 12304)
    (mkHeader 1 invalidPointer invalidPointer 2 8)
    (mkHeader 1 invalidPointer invalidPointer 2 8)
    [⟨0, BlockStatus.used, some 12288, some 0, none⟩,
      ⟨1, BlockStatus.used, some 12296, some 0, none⟩]
    (by decide) (by decide)

lemma readU64?_eq_none {buf : Buffer} {off : Int}
    (h : ¬ (0 ≤ off ∧ off + 8 ≤ (buf.byteLength : Int))) : readU64? buf off = none :=
  if_neg h

lemma readU64?_eq_some {buf : Buffer} {off : Int}
    (h : 0 ≤ off ∧ off + 8 ≤ (buf.byteLength : Int)) :
    readU64? buf off = some (readU64 buf off.toNat) :=
  if_pos h

lemma list_contains_iff {l : List Int} {a : Int} : l.contains a = true ↔ a ∈ l :=
  List.elem_iff

lemma hasBlockKey_iff (pairs : List (Int × Int)) (b : Int) :
    hasBlockKey pairs b = true ↔ ∃ j, (b, j) ∈ pairs := by
  unfold hasBlockKey
  rw [List.any_eq_true]
  constructor
  · rintro ⟨⟨a, j⟩, hq, he⟩
    simp only [beq_iff_eq] at he
    subst he
    exact ⟨j, hq⟩
  · rintro ⟨j, hj⟩
    exact ⟨(b, j), hj, by simp⟩

lemma segmentUsed_iff (pairs : List (Int × Int)) (b j : Int) :
    segmentUsed pairs b j = true ↔ (b, j) ∈ pairs := by
  unfold segmentUsed
  exact List.elem_iff

lemma classifyBlock_oob (buf : Buffer) (bs : Int) (pairs : List (Int × Int))
    (free : List Int) (i : Nat)
    (h : ¬ (0 ≤ BLOCK_START + (i : Int) * bs ∧
      BLOCK_START + (i : Int) * bs + 8 ≤ (buf.byteLength : Int))) :
    classifyBlock buf bs pairs free i = ⟨(i : Int), .invalid, none, none, none⟩ := by
  simp only [classifyBlock]
  by_cases h1 : BLOCK_START + (i : Int) * bs < 0 ∨
      BLOCK_START + (i : Int) * bs ≥ (buf.byteLength : Int)
  · rw [if_pos h1]
  · rw [if_neg h1]
    push_neg at h1
    rw [readU64?_eq_none (by omega)]

lemma classifyBlock_inb (buf : Buffer) (bs : Int) (pairs : List (Int × Int))
    (free : List Int) (i : Nat)
    (h : 0 ≤ BLOCK_START + (i : Int) * bs ∧
      BLOCK_START + (i : Int) * bs + 8 ≤ (buf.byteLength : Int)) :
    classifyBlock buf bs pairs free i =
      (if hasBlockKey pairs (i : Int) then
        ⟨(i : Int), .metadata, some (BLOCK_START + (i : Int) * bs),
          some (readU64 buf (BLOCK_START + (i : Int) * bs).toNat),
          some ((List.range META_SEGMENTS_PER_BLOCK).map fun (j : ℕ) =>
            MetaSegment.mk (segmentUsed pairs (i : Int) ((j : ℕ) : Int)) j)⟩
      else if free.contains (i : Int) then
        ⟨(i : Int), .free, some (BLOCK_START + (i : Int) * bs),
          some (readU64 buf (BLOCK_START + (i : Int) * bs).toNat), none⟩
      else
        ⟨(i : Int), .used, some (BLOCK_START + (i : Int) * bs),
          some (readU64 buf (BLOCK_START + (i : Int) * bs).toNat), none⟩) := by
  obtain ⟨h0, h8⟩ := h
  simp only [classifyBlock]
  rw [if_neg (by omega : ¬ (BLOCK_START + (i : Int) * bs < 0 ∨
    BLOCK_START + (i : Int) * bs ≥ (buf.byteLength : Int)))]
  rw [readU64?_eq_some ⟨h0, h8⟩]

lemma classifyBlock_statuses (buf : Buffer) (bs : Int) (pairs : List (Int × Int))
    (free : List Int) (i : Nat) :
    (¬ (0 ≤ BLOCK_START + (i : Int) * bs ∧
          BLOCK_START + (i : Int) * bs + 8 ≤ (buf.byteLength : Int)) →
      (classifyBlock buf bs pairs free i).status = .invalid ∧
      (classifyBlock buf bs pairs free i).metaSegments = none) ∧
    ((0 ≤ BLOCK_START + (i : Int) * bs ∧
          BLOCK_START + (i : Int) * bs + 8 ≤ (buf.byteLength : Int)) →
      ((classifyBlock buf bs pairs free i).status = .metadata ↔ ∃ j, ((i : Int), j) ∈ pairs) ∧
      ((classifyBlock buf bs pairs free i).status = .free ↔
        (¬ ∃ j, ((i : Int), j) ∈ pairs) ∧ (i : Int) ∈ free) ∧
      ((classifyBlock buf bs pairs free i).status = .used ↔
        (¬ ∃ j, ((i : Int), j) ∈ pairs) ∧ (i : Int) ∉ free) ∧
      ((classifyBlock buf bs pairs free i).status = .metadata →
        ∃ segs, (classifyBlock buf bs pairs free i).metaSegments = some segs ∧
          segs.length = META_SEGMENTS_PER_BLOCK ∧
          ∀ (j : Nat) (hj : j < segs.length),
            (segs[j].used = true ↔ ((i : Int), (j : Int)) ∈ pairs) ∧ segs[j].index = j) ∧
      ((classifyBlock buf bs pairs free i).status ≠ .metadata →
        (classifyBlock buf bs pairs free i).metaSegments = none)) := by
  by_cases hin : 0 ≤ BLOCK_START + (i : Int) * bs ∧
      BLOCK_START + (i : Int) * bs + 8 ≤ (buf.byteLength : Int)
  · rw [classifyBlock_inb buf bs pairs free i hin]
    refine ⟨fun hc => absurd hin hc, fun _ => ?_⟩
    by_cases hk : hasBlockKey pairs (i : Int)
    · rw [if_pos hk]
      have hex : ∃ j, ((i : Int), j) ∈ pairs := (hasBlockKey_iff pairs (i : Int)).mp hk
      refine ⟨by simpa using hex, by simp [hex], by simp [hex], fun _ => ?_, by simp⟩
      refine ⟨_, rfl, by simp, ?_⟩
      intro j hj
      have hj' : j < META_SEGMENTS_PER_BLOCK := by simpa using hj
      constructor
      · simp only [List.getElem_map, List.getElem_range]
        exact segmentUsed_iff pairs (i : Int) (j : Int)
      · simp [List.getElem_map, List.getElem_range]
    · rw [if_neg hk]
      have hnex : ¬ ∃ j, ((i : Int), j) ∈ pairs := fun hex =>
        hk ((hasBlockKey_iff pairs (i : Int)).mpr hex)
      by_cases hf : free.contains (i : Int)
      · rw [if_pos hf]
        have hmem : (i : Int) ∈ free := list_contains_iff.mp hf
        exact ⟨by simp [hnex], by simp [hnex, hmem], by simp [hmem], by simp, by simp⟩
      · rw [if_neg hf]
        have hmem : (i : Int) ∉ free := fun hm => hf (list_contains_iff.mpr hm)
        exact ⟨by simp [hnex], by simp [hmem], by simp [hnex, hmem], by simp, by simp⟩
  · rw [classifyBlock_oob buf bs pairs free i hin]
    exact ⟨fun _ => ⟨rfl, rfl⟩, fun hc => absurd hc hin⟩

/-- C4 counterexample: with a 12292-byte all-zero buffer and one 8-byte
block, block 0's offset 12288 is inside the buffer (the claim's
"otherwise" case, which with no metadata chain and no free list demands
USED), yet `analyzeBlocks` records the block as INVALID, because the
8-byte checksum read at offset 12288 throws a `RangeError` that the
loop catches. -/
theorem classification_boundary_counterexample :
    analyzeBlocks 0 (zeroBuffer 12292) (mkHeader 1 invalidPointer invalidPointer 1 8)
        (mkHeader 1 invalidPointer invalidPointer 1 8) =
      some (.ok [⟨0, BlockStatus.invalid, none, none, none⟩]) ∧
    BLOCK_START + (0 : Int) * 8 < ((zeroBuffer 12292).byteLength : Int) ∧
    BlockStatus.invalid ≠ BlockStatus.used :=
  ⟨by decide, by decide, by decide⟩

/-- C4 (amended): for every id `i` in `[0, blockCount)` of a normal
`analyzeBlocks` run: if the 8-byte checksum read at
`offset = BLOCK_START + i * blockSize` does not fit in the buffer
(offset negative, at or past the end, or overhanging its last 8 bytes),
the block is INVALID (with no `metaSegments`) and classification
continues; otherwise the status is METADATA exactly when `i` is a key
of the metadata-chain map, in which case `metaSegments` has length
exactly 64 with entry `j` marked used iff the pair `(i, j)` was
recorded; else FREE exactly when `i` is in the free set; else USED.
The three statuses are characterized by mutually exclusive conditions,
and `metaSegments` is absent for non-METADATA blocks. -/
theorem analyzeBlocks_classification (fuel : Nat) (buf : Buffer)
    (h1 h2 A : DatabaseHeader) (bs : Int)
    (pairs0 pairs : List (Int × Int)) (free : List Int) (blocks : List Block) (i : Nat)
    (hA : A = activeHeaderOf h1 h2) (hbs : bs = A.blockAllocSize)
    (hfl : freeListPhase buf bs (segmentSizeOf bs) A = .ok pairs0 free)
    (hwalk : metaChainWalk buf bs (segmentSizeOf bs) fuel A.metaBlock.pointer
      A.metaBlock.blockId A.metaBlock.blockIndex pairs0 = some pairs)
    (hrun : analyzeBlocks fuel buf h1 h2 = some (.ok blocks))
    (hi : i < blocks.length) :
    (¬ (0 ≤ BLOCK_START + (i : Int) * bs ∧
          BLOCK_START + (i : Int) * bs + 8 ≤ (buf.byteLength : Int)) →
      blocks[i].status = .invalid ∧ blocks[i].metaSegments = none) ∧
    ((0 ≤ BLOCK_START + (i : Int) * bs ∧
          BLOCK_START + (i : Int) * bs + 8 ≤ (buf.byteLength : Int)) →
      (blocks[i].status = .metadata ↔ ∃ j, ((i : Int), j) ∈ pairs) ∧
      (blocks[i].status = .free ↔ (¬ ∃ j, ((i : Int), j) ∈ pairs) ∧ (i : Int) ∈ free) ∧
      (blocks[i].status = .used ↔ (¬ ∃ j, ((i : Int), j) ∈ pairs) ∧ (i : Int) ∉ free) ∧
      (blocks[i].status = .metadata →
        ∃ segs, blocks[i].metaSegments = some segs ∧
          segs.length = META_SEGMENTS_PER_BLOCK ∧
          ∀ (j : Nat) (hj : j < segs.length),
            (segs[j].used = true ↔ ((i : Int), (j : Int)) ∈ pairs) ∧ segs[j].index = j) ∧
      (blocks[i].status ≠ .metadata → blocks[i].metaSegments = none)) := by
  subst hA
  subst hbs
  rw [analyzeBlocks_eq_core] at hrun
  obtain ⟨p0', f', p', hfl', hwalk', hblocks⟩ := analyzeCore_ok hrun
  rw [hfl] at hfl'
  obtain ⟨rfl, rfl⟩ : pairs0 = p0' ∧ free = f' := by
    simpa [FreeListResult.ok.injEq] using hfl'
  rw [hwalk] at hwalk'
  obtain rfl : pairs = p' := by simpa using hwalk'
  subst hblocks
  simp only [List.getElem_map, List.getElem_range]
  exact classifyBlock_statuses buf (activeHeaderOf h1 h2).blockAllocSize pairs free i

theorem analyzeBlocks_classification_witness :
    (¬ (0 ≤ BLOCK_START + ((1 : ℕ) : Int) * 4096 ∧
          BLOCK_START + ((1 : ℕ) : Int) * 4096 + 8 ≤ (chainBuffer.byteLength : Int)) →
      (chainBlocks.get ⟨1, by decide⟩).status = .invalid ∧
      (chainBlocks.get ⟨1, by decide⟩).metaSegments = none) ∧
    ((0 ≤ BLOCK_START + ((1 : ℕ) : Int) * 4096 ∧
          BLOCK_START + ((1 : ℕ) : Int) * 4096 + 8 ≤ (chainBuffer.byteLength : Int)) →
      ((chainBlocks.get ⟨1, by decide⟩).status = .metadata ↔
        ∃ j, (((1 : ℕ) : Int), j) ∈ [((1 : Int), (0 : Int))]) ∧
      ((chainBlocks.get ⟨1, by decide⟩).status = .free ↔
        (¬ ∃ j, (((1 : ℕ) : Int), j) ∈ [((1 : Int), (0 : Int))]) ∧
          ((1 : ℕ) : Int) ∈ ([] : List Int)) ∧
      ((chainBlocks.get ⟨1, by decide⟩).status = .used ↔
        (¬ ∃ j, (((1 : ℕ) : Int), j) ∈ [((1 : Int), (0 : Int))]) ∧
          ((1 : ℕ) : Int) ∉ ([] : List Int)) ∧
      ((chainBlocks.get ⟨1, by decide⟩).status = .metadata →
        ∃ segs, (chainBlocks.get ⟨1, by decide⟩).metaSegments = some segs ∧
          segs.length = META_SEGMENTS_PER_BLOCK ∧
          ∀ (j : Nat) (hj : j < segs.length),
            (segs[j].used = true ↔ (((1 : ℕ) : Int), (j : Int)) ∈ [((1 : Int), (0 : Int))]) ∧
            segs[j].index = j) ∧
      ((chainBlocks.get ⟨1, by decide⟩).status ≠ .metadata →
        (chainBlocks.get ⟨1, by decide⟩).metaSegments = none)) :=
  analyzeBlocks_classification 1 chainBuffer chainHeader chainHeader chainHeader 4096
    [] [((1 : Int), (0 : Int))] [] chainBlocks 1
    (by decide) (by decide) (by decide) (by decide) (by decide) (by decide)

lemma readU64_nonneg (buf : Buffer) (off : Nat) : 0 ≤ readU64 buf off :=
  Int.natCast_nonneg _

lemma readFreeIds_ok (buf : Buffer) (base : Int) (hbase : 0 ≤ base) (n : Nat) :
    ∀ (i : Nat), base + 16 + 8 * ((i : Int) + (n : Int)) ≤ (buf.byteLength : Int) →
      readFreeIds buf base i n =
        some ((List.range n).map fun k =>
          readU64 buf (base + 16 + 8 * ((i + k : ℕ) : Int)).toNat) := by
  induction n with
  | zero =>
    intro i _
    simp [readFreeIds]
  | succ n ih =>
    intro i hlen
    have hr : readU64? buf (base + 16 + 8 * (i : Int)) =
        some (readU64 buf (base + 16 + 8 * (i : Int)).toNat) := by
      apply readU64?_eq_some
      refine ⟨by omega, by push_cast at hlen ⊢; omega⟩
    simp only [readFreeIds]
    rw [hr, ih (i + 1) (by push_cast at hlen ⊢; omega)]
    simp only [List.range_succ_eq_map, List.map_cons, List.map_map, Option.some.injEq]
    congr 1
    apply List.map_congr_left
    intro a _
    simp only [Function.comp_apply]
    congr 2
    omega

/-- C5: if the active header's free-list pointer is not the terminator
and the 64-bit count read at byte offset 8 of the free list's first
segment exceeds `segmentSize / 8 - 2`, `analyzeBlocks` raises the
LIST_TOO_LARGE error before reading any free-block id; if the count is
within the bound (and the ids lie inside the buffer), exactly `count`
8-byte block ids are read starting at byte offset 16 of the segment and
become the free set. -/
theorem freeList_guard (fuel : Nat) (buf : Buffer) (h1 h2 A : DatabaseHeader)
    (bs ss cap off : Int)
    (hA : A = activeHeaderOf h1 h2) (hbs : bs = A.blockAllocSize)
    (hss : ss = segmentSizeOf bs)
    (hoff : off = BLOCK_START + A.freeList.blockId * bs + BLOCK_HEADER_SIZE +
      A.freeList.blockIndex * ss)
    (hcap : cap = ss / 8 - 2)
    (hptr : A.freeList.pointer ≠ INVALID_BLOCK)
    (h0 : 0 ≤ off) (hlt : off < (buf.byteLength : Int))
    (h16 : off + 16 ≤ (buf.byteLength : Int)) :
    (readU64 buf (off + 8).toNat > cap →
      analyzeBlocks fuel buf h1 h2 = some (.error .freeListTooLarge)) ∧
    (readU64 buf (off + 8).toNat ≤ cap →
      off + 16 + 8 * readU64 buf (off + 8).toNat ≤ (buf.byteLength : Int) →
      freeListPhase buf bs ss A =
        .ok [(A.freeList.blockId, A.freeList.blockIndex)]
          ((List.range (readU64 buf (off + 8).toNat).toNat).map
            fun k => readU64 buf (off + 16 + 8 * ((k : ℕ) : Int)).toNat)) := by
  subst hA hbs hss hoff hcap
  have hread : readU64? buf
      (BLOCK_START + (activeHeaderOf h1 h2).freeList.blockId *
        (activeHeaderOf h1 h2).blockAllocSize + BLOCK_HEADER_SIZE +
        (activeHeaderOf h1 h2).freeList.blockIndex *
        segmentSizeOf (activeHeaderOf h1 h2).blockAllocSize + 8) =
      some (readU64 buf
        (BLOCK_START + (activeHeaderOf h1 h2).freeList.blockId *
          (activeHeaderOf h1 h2).blockAllocSize + BLOCK_HEADER_SIZE +
          (activeHeaderOf h1 h2).freeList.blockIndex *
          segmentSizeOf (activeHeaderOf h1 h2).blockAllocSize + 8).toNat) :=
    readU64?_eq_some ⟨by omega, by omega⟩
  constructor
  · intro hbig
    rw [analyzeBlocks_eq_core]
    have hfl : freeListPhase buf (activeHeaderOf h1 h2).blockAllocSize
        (segmentSizeOf (activeHeaderOf h1 h2).blockAllocSize) (activeHeaderOf h1 h2) =
        .error .freeListTooLarge := by
      simp only [freeListPhase]
      rw [if_neg hptr, if_neg (by omega : ¬ (BLOCK_START +
        (activeHeaderOf h1 h2).freeList.blockId * (activeHeaderOf h1 h2).blockAllocSize +
        BLOCK_HEADER_SIZE + (activeHeaderOf h1 h2).freeList.blockIndex *
        segmentSizeOf (activeHeaderOf h1 h2).blockAllocSize < 0 ∨
        BLOCK_START + (activeHeaderOf h1 h2).freeList.blockId *
        (activeHeaderOf h1 h2).blockAllocSize + BLOCK_HEADER_SIZE +
        (activeHeaderOf h1 h2).freeList.blockIndex *
        segmentSizeOf (activeHeaderOf h1 h2).blockAllocSize ≥ (buf.byteLength : Int)))]
      rw [hread]
      dsimp only
      rw [if_pos hbig]
    simp [analyzeCore, hfl]
  · intro hsmall hids
    simp only [freeListPhase]
    rw [if_neg hptr, if_neg (by omega : ¬ (BLOCK_START +
      (activeHeaderOf h1 h2).freeList.blockId * (activeHeaderOf h1 h2).blockAllocSize +
      BLOCK_HEADER_SIZE + (activeHeaderOf h1 h2).freeList.blockIndex *
      segmentSizeOf (activeHeaderOf h1 h2).blockAllocSize < 0 ∨
      BLOCK_START + (activeHeaderOf h1 h2).freeList.blockId *
      (activeHeaderOf h1 h2).blockAllocSize + BLOCK_HEADER_SIZE +
      (activeHeaderOf h1 h2).freeList.blockIndex *
      segmentSizeOf (activeHeaderOf h1 h2).blockAllocSize ≥ (buf.byteLength : Int)))]
    rw [hread]
    dsimp only
    rw [if_neg (by omega)]
    rw [readFreeIds_ok buf _ (by omega) _ 0 (by
      rw [Int.toNat_of_nonneg (readU64_nonneg buf _)]
      push_cast
      omega)]
    dsimp only
    apply congrArg
    apply List.map_congr_left
    intro a _
    congr 3
    omega

theorem freeList_guard_witness :
    (readU64 freeListBuffer ((12296 : ℤ) + 8).toNat > 5 →
      analyzeBlocks 0 freeListBuffer freeListHeader freeListHeader =
        some (.error .freeListTooLarge)) ∧
    (readU64 freeListBuffer ((12296 : ℤ) + 8).toNat ≤ 5 →
      (12296 : ℤ) + 16 + 8 * readU64 freeListBuffer ((12296 : ℤ) + 8).toNat ≤
        (freeListBuffer.byteLength : Int) →
      freeListPhase freeListBuffer 4096 56 freeListHeader =
        .ok [(freeListHeader.freeList.blockId, freeListHeader.freeList.blockIndex)]
          ((List.range (readU64 freeListBuffer ((12296 : ℤ) + 8).toNat).toNat).map
            fun k => readU64 freeListBuffer ((12296 : ℤ) + 16 + 8 * ((k : ℕ) : Int)).toNat)) :=
  freeList_guard 0 freeListBuffer freeListHeader freeListHeader freeListHeader
    4096 56 5 12296 (by decide) (by decide) (by decide) (by decide) (by decide)
    (by decide) (by decide) (by decide) (by decide)

lemma freeListPhase_tooLarge (buf : Buffer) (A : DatabaseHeader) (bs off : Int)
    (hoff : off = BLOCK_START + A.freeList.blockId * bs + BLOCK_HEADER_SIZE +
      A.freeList.blockIndex * segmentSizeOf bs)
    (hptr : A.freeList.pointer ≠ INVALID_BLOCK)
    (h0 : 0 ≤ off) (hlt : off < (buf.byteLength : Int))
    (h16 : off + 16 ≤ (buf.byteLength : Int))
    (hbig : readU64 buf (off + 8).toNat > segmentSizeOf bs / 8 - 2) :
    freeListPhase buf bs (segmentSizeOf bs) A = .error .freeListTooLarge := by
  subst hoff
  simp only [freeListPhase]
  rw [if_neg hptr, if_neg (by omega : ¬ (BLOCK_START + A.freeList.blockId * bs +
    BLOCK_HEADER_SIZE + A.freeList.blockIndex * segmentSizeOf bs < 0 ∨
    BLOCK_START + A.freeList.blockId * bs + BLOCK_HEADER_SIZE +
    A.freeList.blockIndex * segmentSizeOf bs ≥ (buf.byteLength : Int)))]
  rw [readU64?_eq_some ⟨by omega, by omega⟩]
  dsimp only
  rw [if_pos hbig]

/-- C6 counterexample: with a free-list count of `2 ^ 64 - 1` (far above
the capacity `segmentSize / 8 - 2 = 5`), `analyzeBlocks` returns the
propagated LIST_TOO_LARGE error, not a Block array: the free-list
section has no `try`/`catch`, so the metadata chain is never walked and
no block (the header declares one) is classified. -/
theorem freeListTooLarge_counterexample :
    analyzeBlocks 5 tooLargeBuffer tooLargeHeader tooLargeHeader =
      some (.error .freeListTooLarge) := by decide

/-- C6 (amended): a LIST_TOO_LARGE condition is fatal to the whole
`analyzeBlocks` call, not just to free-list parsing: the error
propagates to the caller, the metadata chain is not walked, and no
Block array is returned, whatever the fuel. -/
theorem freeListTooLarge_fatal (fuel : Nat) (buf : Buffer) (h1 h2 A : DatabaseHeader)
    (bs ss cap off : Int)
    (hA : A = activeHeaderOf h1 h2) (hbs : bs = A.blockAllocSize)
    (hss : ss = segmentSizeOf bs)
    (hoff : off = BLOCK_START + A.freeList.blockId * bs + BLOCK_HEADER_SIZE +
      A.freeList.blockIndex * ss)
    (hcap : cap = ss / 8 - 2)
    (hptr : A.freeList.pointer ≠ INVALID_BLOCK)
    (h0 : 0 ≤ off) (hlt : off < (buf.byteLength : Int))
    (h16 : off + 16 ≤ (buf.byteLength : Int))
    (hbig : readU64 buf (off + 8).toNat > cap) :
    analyzeBlocks fuel buf h1 h2 = some (.error .freeListTooLarge) ∧
    ∀ blocks : List Block, analyzeBlocks fuel buf h1 h2 ≠ some (.ok blocks) := by
  subst hA
  subst hbs
  subst hss
  subst hcap
  have hfl := freeListPhase_tooLarge buf (activeHeaderOf h1 h2)
    (activeHeaderOf h1 h2).blockAllocSize off hoff hptr h0 hlt h16 hbig
  have hrun : analyzeBlocks fuel buf h1 h2 = some (.error .freeListTooLarge) := by
    rw [analyzeBlocks_eq_core]
    simp [analyzeCore, hfl]
  exact ⟨hrun, fun blocks he => by rw [hrun] at he; simp at he⟩

theorem freeListTooLarge_fatal_witness :
    analyzeBlocks 7 tooLargeBuffer tooLargeHeader tooLargeHeader =
      some (.error .freeListTooLarge) ∧
    ∀ blocks : List Block, analyzeBlocks 7 tooLargeBuffer tooLargeHeader tooLargeHeader ≠
      some (.ok blocks) :=
  freeListTooLarge_fatal 7 tooLargeBuffer tooLargeHeader tooLargeHeader tooLargeHeader
    4096 56 5 12296 (by decide) (by decide) (by decide) (by decide) (by decide)
    (by decide) (by decide) (by decide) (by decide) (by decide)

/-- C7: a metadata-chain link whose computed segment offset does not
admit the 8-byte next-pointer read aborts only the remainder of the
walk: the loop's catch turns both the failed bounds check and the
`RangeError` into a `break`, the walk returns the pairs recorded so far
(the failing link's own pair included, since it is recorded before the
offset check), and every recorded pair still makes its block METADATA
with the recorded segment marked used during classification. -/
theorem metaChain_oob_recovery (buf : Buffer) (bs ss : Int) (fuel : Nat)
    (ptr blockIdCur blockIndexCur : Int) (acc : List (Int × Int))
    (hptr : ptr ≠ INVALID_BLOCK)
    (hoob : BLOCK_START + blockIdCur * bs + BLOCK_HEADER_SIZE + blockIndexCur * ss < 0 ∨
      (buf.byteLength : Int) <
        BLOCK_START + blockIdCur * bs + BLOCK_HEADER_SIZE + blockIndexCur * ss + 8) :
    metaChainWalk buf bs ss (fuel + 1) ptr blockIdCur blockIndexCur acc =
      some ((blockIdCur, blockIndexCur) :: acc) ∧
    (∀ (pairs : List (Int × Int)) (free : List Int) (i j : Nat),
      ((i : Int), (j : Int)) ∈ pairs → j < META_SEGMENTS_PER_BLOCK →
      0 ≤ BLOCK_START + (i : Int) * bs →
      BLOCK_START + (i : Int) * bs + 8 ≤ (buf.byteLength : Int) →
      (classifyBlock buf bs pairs free i).status = .metadata ∧
      ∃ segs, (classifyBlock buf bs pairs free i).metaSegments = some segs ∧
        ∀ (hj : j < segs.length), (segs.get ⟨j, hj⟩).used = true) := by
  constructor
  · simp only [metaChainWalk]
    rw [if_neg hptr]
    by_cases hb : BLOCK_START + blockIdCur * bs + BLOCK_HEADER_SIZE +
        blockIndexCur * ss < 0 ∨
        BLOCK_START + blockIdCur * bs + BLOCK_HEADER_SIZE + blockIndexCur * ss ≥
          (buf.byteLength : Int)
    · rw [if_pos hb]
    · rw [if_neg hb]
      rw [readU64?_eq_none (by omega)]
  · intro pairs free i j hmem hj64 h0 h8
    rw [classifyBlock_inb buf bs pairs free i ⟨h0, h8⟩]
    have hk : hasBlockKey pairs (i : Int) = true :=
      (hasBlockKey_iff pairs (i : Int)).mpr ⟨(j : Int), hmem⟩
    rw [if_pos hk]
    refine ⟨rfl, _, rfl, ?_⟩
    intro hj
    have hj' : j < META_SEGMENTS_PER_BLOCK := by simpa using hj
    simp only [List.get_eq_getElem, List.getElem_map, List.getElem_range]
    exact (segmentUsed_iff pairs (i : Int) (j : Int)).mpr hmem

theorem metaChain_oob_recovery_witness :
    metaChainWalk shortBuffer 4096 56 1 1 1 0 [] = some [((1 : Int), (0 : Int))] ∧
    ((classifyBlock shortBuffer 4096 [((1 : Int), (0 : Int))] [] 1).status = .metadata ∧
      ∃ segs,
        (classifyBlock shortBuffer 4096 [((1 : Int), (0 : Int))] [] 1).metaSegments =
          some segs ∧
        ∀ (hj : 0 < segs.length), (segs.get ⟨0, hj⟩).used = true) :=
  ⟨(metaChain_oob_recovery shortBuffer 4096 56 0 1 1 0 [] (by decide) (by decide)).1,
    (metaChain_oob_recovery shortBuffer 4096 56 0 1 1 0 [] (by decide) (by decide)).2
      [((1 : Int), (0 : Int))] [] 1 0 (by decide) (by decide) (by decide) (by decide)⟩

/-- C10: if the active header's free-list pointer is not the terminator
but the computed byte offset of the free list's first segment is out of
buffer bounds, `analyzeBlocks` throws immediately (the
`Invalid meta block for free list` error): the error propagates to the
caller, so no Block array is produced and neither the metadata-chain
walk nor the classification loop is reached, whatever the fuel — in
contrast to per-block and chain-link errors, which degrade to INVALID
entries or early chain termination. -/
theorem freeList_invalidMeta_fatal (fuel : Nat) (buf : Buffer) (h1 h2 A : DatabaseHeader)
    (bs ss off : Int)
    (hA : A = activeHeaderOf h1 h2) (hbs : bs = A.blockAllocSize)
    (hss : ss = segmentSizeOf bs)
    (hoff : off = BLOCK_START + A.freeList.blockId * bs + BLOCK_HEADER_SIZE +
      A.freeList.blockIndex * ss)
    (hptr : A.freeList.pointer ≠ INVALID_BLOCK)
    (hoob : off < 0 ∨ off ≥ (buf.byteLength : Int)) :
    analyzeBlocks fuel buf h1 h2 = some (.error .invalidFreeListMeta) ∧
    ∀ blocks : List Block, analyzeBlocks fuel buf h1 h2 ≠ some (.ok blocks) := by
  subst hA
  subst hbs
  subst hss
  subst hoff
  have hfl : freeListPhase buf (activeHeaderOf h1 h2).blockAllocSize
      (segmentSizeOf (activeHeaderOf h1 h2).blockAllocSize) (activeHeaderOf h1 h2) =
      .error .invalidFreeListMeta := by
    simp only [freeListPhase]
    rw [if_neg hptr, if_pos hoob]
  have hrun : analyzeBlocks fuel buf h1 h2 = some (.error .invalidFreeListMeta) := by
    rw [analyzeBlocks_eq_core]
    simp [analyzeCore, hfl]
  exact ⟨hrun, fun blocks he => by rw [hrun] at he; simp at he⟩

theorem freeList_invalidMeta_fatal_witness :
    analyzeBlocks 2 tinyBuffer tooLargeHeader tooLargeHeader =
      some (.error .invalidFreeListMeta) ∧
    ∀ blocks : List Block, analyzeBlocks 2 tinyBuffer tooLargeHeader tooLargeHeader ≠
      some (.ok blocks) :=
  freeList_invalidMeta_fatal 2 tinyBuffer tooLargeHeader tooLargeHeader tooLargeHeader
    4096 56 12296 (by decide) (by decide) (by decide) (by decide) (by decide) (by decide)

/-- C9: `isVersionSupported` evaluates the six specified examples as
claimed, and in general a string whose prefix matches
`v(\d+).(\d+).(\d+)` is accepted exactly when `(major, minor, patch)`
is lexicographically at least `(1, 2, 0)`, while a string that does not
match (the empty string and strings without the `v` prefix included) is
rejected. -/
theorem isVersionSupported_spec :
    (isVersionSupported (r"v1.2.0") = true ∧
      isVersionSupported (r"v1.1.9") = false ∧
      isVersionSupported (r"v1.2.0e52ec4395") = true ∧
      isVersionSupported (r"") = false ∧
      isVersionSupported (r"1.2.0") = false ∧
      isVersionSupported (r"v2.0.0") = true) ∧
    (∀ (s : String) (major minor patch : Nat),
      versionMatch s = some (major, minor, patch) →
      (isVersionSupported s = true ↔ versionLexGe120 major minor patch)) ∧
    (∀ s : String, versionMatch s = none → isVersionSupported s = false) := by
  refine ⟨⟨by decide, by decide, by decide, by decide, by decide, by decide⟩, ?_, ?_⟩
  · intro s major minor patch hm
    have hv : s.toList.head? = some 'v' := by
      unfold versionMatch at hm
      cases hl : s.toList with
      | nil => rw [hl] at hm; exact absurd hm (by simp)
      | cons c rest =>
        rw [hl] at hm
        dsimp only at hm
        by_cases hc : c = 'v'
        · subst hc; simp
        · rw [if_neg hc] at hm; exact absurd hm (by simp)
    unfold isVersionSupported
    rw [if_neg (fun hne => hne hv)]
    rw [hm]
    dsimp only
    unfold versionLexGe120
    split_ifs with hA hB hC <;> simp_all <;> omega
  · intro s hnone
    unfold isVersionSupported
    by_cases hv : s.toList.head? ≠ some 'v'
    · rw [if_pos hv]
    · rw [if_neg hv, hnone]

theorem isVersionSupported_spec_witness :
    isVersionSupported (r"v3.4.5") = true :=
  (isVersionSupported_spec.2.1 (r"v3.4.5") 3 4 5 (by decide)).mpr
    (by unfold versionLexGe120; decide)
